import Mathlib

/-!
Shallow embedding of the marketplace-integration core of the
guilt-free-goods repository, together with theorems settling the frozen
claims about its natural-language specification.

Source files embedded:
  * src/backend/app/marketplace_integrations/cross_platform_sync.py
    (class CrossPlatformSync: allocate_inventory, sync_inventory_levels,
     create_or_update_listing, update_listing_stock, delist_item)
  * src/backend/app/marketplace_integrations/market_research_jobs.py
    (class MarketResearchJob: predict_seasonal_demand,
     analyze_competitive_pricing)

Modelling conventions:
  * Python float arithmetic is modelled as exact rational arithmetic over
    unnormalised integer fractions (structure Frac below).  Every
    denominator produced by the embedded code is positive; the comparison
    and floor operations are stated for that case.
  * Python dictionaries built over distinct keys are modelled as
    association lists in insertion order.  The orchestrator only ever
    passes deduplicated marketplace lists to the allocator, and theorems
    about the allocator carry a List.Nodup hypothesis where the dict
    collapse of duplicate keys would matter.
  * Raising an exception is modelled by the Except monad; a caught
    exception corresponds to matching on the .error constructor.
  * The Prisma database client is modelled as a record of rows plus an
    optional connection fault: every query fails (raises) when the fault
    is set, and otherwise returns the matching rows.
-/

/-- Exact fraction model of Python float values: an integer numerator and
denominator.  All denominators produced by the embedded code are
positive. -/
structure Frac where
  num : Int
  den : Int
deriving DecidableEq, Repr

/-- Embed a natural number as a fraction. -/
def Frac.ofNat (n : Nat) : Frac := ⟨n, 1⟩

/-- Addition of fractions. -/
def Frac.fadd (a b : Frac) : Frac := ⟨a.num * b.den + b.num * a.den, a.den * b.den⟩

/-- Subtraction of fractions. -/
def Frac.fsub (a b : Frac) : Frac := ⟨a.num * b.den - b.num * a.den, a.den * b.den⟩

/-- Multiplication of fractions. -/
def Frac.fmul (a b : Frac) : Frac := ⟨a.num * b.num, a.den * b.den⟩

/-- Division of fractions, keeping the denominator positive when both
input denominators are positive and the divisor is nonzero.  Division by
an exactly-zero fraction never happens on the embedded code paths: every
division is either guarded in the source or has a divisor that is
positive by construction. -/
def Frac.fdiv (a b : Frac) : Frac :=
  if b.num < 0 then ⟨-(a.num * b.den), a.den * (-b.num)⟩
  else ⟨a.num * b.den, a.den * b.num⟩

/-- Comparison a less-or-equal b, valid for positive denominators. -/
def Frac.leB (a b : Frac) : Bool := a.num * b.den ≤ b.num * a.den

/-- Comparison a strictly-less-than b, valid for positive denominators. -/
def Frac.ltB (a b : Frac) : Bool := a.num * b.den < b.num * a.den

/-- Python max(a, b): returns the first argument when the two are equal. -/
def Frac.fmax (a b : Frac) : Frac := if Frac.leB b a then a else b

/-- Python min(a, b): returns the first argument when the two are equal. -/
def Frac.fmin (a b : Frac) : Frac := if Frac.leB a b then a else b

/-- Python int(x) for the nonnegative fractions produced by the allocator:
truncation toward zero, clamped into Nat. -/
def Frac.floorToNat (a : Frac) : Nat := (Int.tdiv a.num a.den).toNat

/-- Python sum over a list of fractions (starting from integer 0). -/
def Frac.sumList (l : List Frac) : Frac := l.foldl Frac.fadd ⟨0, 1⟩

/-- Association-list lookup, modelling Python dict access d.get(k). -/
def dlookup {ν : Type} (d : List (String × ν)) (k : String) : Option ν :=
  match d with
  | [] => none
  | (k2, v) :: t => if k2 = k then some v else dlookup t k

/-- Association-list lookup with default. -/
def dlookupD {ν : Type} (d : List (String × ν)) (k : String) (dflt : ν) : ν :=
  match dlookup d k with
  | some v => v
  | none => dflt

/-- Python dict insertion d[k] = v: replaces the value in place when the
key is present, otherwise appends the new key at the end. -/
def dinsert {ν : Type} (k : String) (v : ν) : List (String × ν) → List (String × ν)
  | [] => [(k, v)]
  | (k2, v2) :: t => if k2 = k then (k2, v) :: t else (k2, v2) :: dinsert k v t

/-- Python collections.defaultdict(int) increment d[k] += 1. -/
def dincr (k : Nat) : List (Nat × Nat) → List (Nat × Nat)
  | [] => [(k, 1)]
  | (k2, v) :: t => if k2 = k then (k2, v + 1) :: t else (k2, v) :: dincr k t

/-- Lookup in a Nat-keyed dict. -/
def dlookupN (d : List (Nat × Nat)) (k : Nat) : Option Nat :=
  match d with
  | [] => none
  | (k2, v) :: t => if k2 = k then some v else dlookupN t k

/-- Python collections.defaultdict(list) extension d[k].extend(ps): the
key is created (with an empty list) by the defaultdict access even when
ps is empty. -/
def dextend (k : String) (ps : List Frac) : List (String × List Frac) → List (String × List Frac)
  | [] => [(k, ps)]
  | (k2, v) :: t => if k2 = k then (k2, v ++ ps) :: t else (k2, v) :: dextend k ps t

/-- Stable insertion used to model Python sorted: x is placed before the
first element it strictly precedes, so elements comparing equal keep
their original relative order. -/
def stableInsert {α : Type} (before : α → α → Bool) (x : α) : List α → List α
  | [] => [x]
  | y :: t => if before x y then x :: y :: t else y :: stableInsert before x t

/-- Stable sort modelling Python sorted(l, key=..., reverse=...): the
strict precedence relation decides when a later element moves in front of
an earlier one. -/
def stableSortBy {α : Type} (before : α → α → Bool) (l : List α) : List α :=
  l.foldl (fun acc x => stableInsert before x acc) []

/-- Deduplication keeping first occurrences, modelling the distinct
marketplace set list(set(...)) built by sync_inventory_levels.  (A Python
set iterates in an unspecified order; the embedding fixes the first
occurrence order.) -/
def dedupFirstAux (seen : List String) : List String → List String
  | [] => []
  | x :: t => if seen.contains x then dedupFirstAux seen t else x :: dedupFirstAux (x :: seen) t

/-- Deduplication keeping first occurrences. -/
def dedupFirst (l : List String) : List String := dedupFirstAux [] l

/-- Python exception values observable from the embedded code: the
MarketplaceError taxonomy versus any other exception. -/
inductive PyErr where
  | marketplace (msg : String)
  | unexpected (msg : String)
deriving DecidableEq, Repr

/-- Timestamp model: exact hours since an arbitrary epoch, plus the
calendar month (1-12) the timestamp falls in.  Subtraction of absHours
models datetime subtraction converted to hours; month models the .month
accessor. -/
structure PyDateTime where
  absHours : Frac
  month : Nat
deriving DecidableEq, Repr

/-- Order row: status is one of pending, completed, cancelled; completedAt
is None (none) unless the order completed. -/
structure OrderRec where
  status : String
  createdAt : PyDateTime
  completedAt : Option PyDateTime := none
deriving DecidableEq, Repr

/-- Market research row attached to a listing; competitorPrices models the
JSON column: none for a falsy value (null or empty dict), some ps for a
truthy dict whose prices entry is ps (possibly empty). -/
structure ResearchRec where
  competitorPrices : Option (List Frac) := none
deriving DecidableEq, Repr

/-- Listing row as used by the embedded functions. -/
structure ListingRec where
  id : String := ""
  itemId : String := ""
  marketplace : String := ""
  status : String := "active"
  createdAt : PyDateTime := ⟨⟨0, 1⟩, 1⟩
  price : Frac := ⟨0, 1⟩
  quantity : Nat := 0
  lastStockUpdate : Option PyDateTime := none
  endedAt : Option PyDateTime := none
  orders : List OrderRec := []
  marketResearch : List ResearchRec := []
deriving DecidableEq, Repr

/-- Item row as used by the embedded functions. -/
structure ItemRec where
  id : String := ""
  detectedCategory : String := ""
  listings : List ListingRec := []
deriving DecidableEq, Repr

/-- Database model: the listing and item tables plus an optional
connection fault.  When conn is set, every query raises. -/
structure DB where
  conn : Option String := none
  listings : List ListingRec := []
  items : List ItemRec := []
deriving DecidableEq, Repr

/-- Query db.listing.find_many(where={marketplace, orders some {}}) used
by allocate_inventory: listings on the given marketplace having at least
one order.  Raises when the connection fault is set. -/
def dbPerfListings (db : DB) (marketplace : String) : Except PyErr (List ListingRec) :=
  match db.conn with
  | some msg => .error (.unexpected msg)
  | none => .ok (db.listings.filter (fun l => l.marketplace == marketplace && !l.orders.isEmpty))

/-- Performance weight of one marketplace, from the body of
allocate_inventory (cross_platform_sync.py lines 54-113).  A marketplace
with no listing history gets weight 1.0; otherwise
weight = max(0.1, successRate * 0.7 + timeFactor * 0.3).  A completed
order with completedAt = None makes the Python subtraction raise
TypeError; avg_time = -168 would make the time factor division raise
ZeroDivisionError.  Both faults surface as .error and are recovered by
the caller through the fallback. -/
def weightFor (db : DB) (marketplace : String) : Except PyErr Frac :=
  match dbPerfListings db marketplace with
  | .error e => .error e
  | .ok listings =>
    if listings.isEmpty then .ok ⟨1, 1⟩
    else
      match listings.foldlM (fun (acc : Nat × Nat × Frac) l =>
        let listingOrders := l.orders.filter
          (fun o => o.status == "completed" || o.status == "cancelled")
        let completed := listingOrders.filter (fun o => o.status == "completed")
        match completed.foldlM (fun (s : Frac) o =>
            match o.completedAt with
            | none => Except.error (PyErr.unexpected "TypeError: completedAt is None")
            | some c => Except.ok (s.fadd (c.absHours.fsub l.createdAt.absHours))) acc.2.2 with
        | .error e => Except.error e
        | .ok t => Except.ok (acc.1 + listingOrders.length, acc.2.1 + completed.length, t))
        ((0, 0, ⟨0, 1⟩) : Nat × Nat × Frac) with
      | .error e => .error e
      | .ok stats =>
        let totalOrders := stats.1
        let successfulOrders := stats.2.1
        let totalTime := stats.2.2
        let successRate : Frac :=
          if 0 < totalOrders then Frac.fdiv (Frac.ofNat successfulOrders) (Frac.ofNat totalOrders)
          else ⟨1, 2⟩
        let avgTime : Frac :=
          if 0 < successfulOrders then Frac.fdiv totalTime (Frac.ofNat successfulOrders)
          else ⟨168, 1⟩
        let denom := avgTime.fadd ⟨168, 1⟩
        if denom.num = 0 then .error (.unexpected "ZeroDivisionError")
        else
          let timeFactor := Frac.fdiv ⟨168, 1⟩ denom
          .ok (Frac.fmax ⟨1, 10⟩ ((successRate.fmul ⟨7, 10⟩).fadd (timeFactor.fmul ⟨3, 10⟩)))

/-- Performance data dict built by the loop over marketplaces in
allocate_inventory: one (marketplace, weight) entry per marketplace, in
input order, aborting at the first raised error. -/
def buildPerf (db : DB) : List String → Except PyErr (List (String × Frac))
  | [] => .ok []
  | m :: t =>
    match weightFor db m with
    | .error e => .error e
    | .ok w =>
      match buildPerf db t with
      | .error e => .error e
      | .ok rest => .ok ((m, w) :: rest)

/-- Sum of the allocated quantities of an allocation map. -/
def sumValues (d : List (String × Nat)) : Nat := (d.map Prod.snd).sum

/-- Base allocations (cross_platform_sync.py lines 116-120):
base[m] = max(1, int(total_stock * weight[m] / total_weight)). -/
def baseAllocationsOf (total_stock : Nat) (perf : List (String × Frac)) : List (String × Nat) :=
  let totalWeight := Frac.sumList (perf.map Prod.snd)
  perf.map (fun p =>
    (p.1, max 1 (Frac.floorToNat (Frac.fdiv ((Frac.ofNat total_stock).fmul p.2) totalWeight))))

/-- Increment of an existing allocation key, modelling the Python
statement base_allocations[sorted_marketplaces[i % n]] += 1.  The missing
key case cannot occur (every sorted marketplace is a key of the
performance dict, hence of the allocation dict) and is modelled as a
no-op. -/
def bumpKey : List (String × Nat) → String → List (String × Nat)
  | [], _ => []
  | (k2, v) :: t, k => if k2 = k then (k2, v + 1) :: t else (k2, v) :: bumpKey t k

/-- Remainder distribution loop (cross_platform_sync.py lines 135-136):
for i in range(remaining), add one unit to the marketplace at index
i mod n of the weight-descending order. -/
def distributeRemaining (sorted : List String) (d : List (String × Nat)) : Nat → List (String × Nat)
  | 0 => d
  | Nat.succ k => bumpKey (distributeRemaining sorted d k) (sorted.getD (k % sorted.length) "")

/-- Weighted allocation path of allocate_inventory (the body of the try
block, cross_platform_sync.py lines 49-138). -/
def weightedAllocation (total_stock : Nat) (marketplaces : List String) (db : DB) :
    Except PyErr (List (String × Nat)) :=
  match buildPerf db marketplaces with
  | .error e => .error e
  | .ok perf =>
    let base := baseAllocationsOf total_stock perf
    let allocated := sumValues base
    let remaining : Int := (total_stock : Int) - (allocated : Int)
    if 0 < remaining then
      let sortedMarketplaces := stableSortBy
        (fun a b => Frac.ltB (dlookupD perf b ⟨0, 1⟩) (dlookupD perf a ⟨0, 1⟩)) marketplaces
      .ok (distributeRemaining sortedMarketplaces base remaining.toNat)
    else .ok base

/-- Even-distribution fallback (cross_platform_sync.py lines 142-149):
total_stock // n per marketplace, one extra unit for the first
total_stock mod n marketplaces in input order. -/
def fallbackAllocation (total_stock : Nat) (marketplaces : List String) : List (String × Nat) :=
  let baseAmount := total_stock / marketplaces.length
  let remainder := total_stock % marketplaces.length
  marketplaces.enum.map (fun p => (p.2, baseAmount + if p.1 < remainder then 1 else 0))

/-- CrossPlatformSync.allocate_inventory (cross_platform_sync.py lines
31-149).  An empty marketplace list returns the empty dict; any exception
raised inside the weighted computation is caught and answered with the
even-distribution fallback, so the function never raises. -/
def allocate_inventory (total_stock : Nat) (marketplaces : List String) (db : DB) :
    Except PyErr (List (String × Nat)) :=
  if marketplaces.isEmpty then .ok []
  else
    match weightedAllocation total_stock marketplaces db with
    | .ok r => .ok r
    | .error _ => .ok (fallbackAllocation total_stock marketplaces)

deriving instance DecidableEq for Except

/-- Database with no rows and a healthy connection, for concrete runs. -/
def dbEmpty : DB := {}

example : allocate_inventory 0 ["ebay"] dbEmpty = .ok [("ebay", 1)] := by decide

example : allocate_inventory 10 ["a", "b"] dbEmpty = .ok [("a", 5), ("b", 5)] := by decide

example : allocate_inventory 7 [] dbEmpty = .ok [] := by decide

example : allocate_inventory 7 ["a", "b", "c"] dbEmpty = .ok [("a", 3), ("b", 2), ("c", 2)] := by
  decide

/-- Response of a successful adapter create_listing call. -/
structure CreateResp where
  external_id : Option String := none
  url : Option String := none
deriving DecidableEq, Repr

/-- Listing payload passed to create_or_update_listing; kept abstract. -/
structure ListingData where
  payload : String := ""
deriving DecidableEq, Repr

/-- Platform-specific payload built inside create_or_update_listing:
the input data enriched with the marketplace name and sync timestamp. -/
structure PlatformData where
  data : ListingData
  marketplace : String
  sync_timestamp : PyDateTime
deriving DecidableEq, Repr

/-- Behaviour of one marketplace adapter (base.MarketplaceClient): each
capability either succeeds or raises.  Adapters are external
collaborators; their behaviour is a parameter of the embedding. -/
structure MarketplaceClient where
  update_stock : String → Nat → Except PyErr Unit
  end_listing : String → Except PyErr Unit
  create_listing : PlatformData → Except PyErr CreateResp

/-- Environment of a CrossPlatformSync instance: the string-keyed adapter
registry self.marketplace_clients and the current wall-clock time
(datetime.now()). -/
structure Env where
  clients : List (String × MarketplaceClient)
  now : PyDateTime := ⟨⟨0, 1⟩, 1⟩

/-- Database write performed by update_listing_stock after a successful
adapter call: set quantity and lastStockUpdate on the listing row. -/
def writeStockUpdate (db : DB) (listing_id : String) (quantity : Nat) (now : PyDateTime) : DB :=
  { db with listings := db.listings.map (fun l =>
      if l.id = listing_id then { l with quantity := quantity, lastStockUpdate := some now }
      else l) }

/-- Database write performed by delist_item after a successful adapter
call: set status to ended and stamp endedAt on the listing row. -/
def writeDelist (db : DB) (listing_id : String) (now : PyDateTime) : DB :=
  { db with listings := db.listings.map (fun l =>
      if l.id = listing_id then { l with status := "ended", endedAt := some now }
      else l) }

/-- CrossPlatformSync.update_listing_stock (cross_platform_sync.py lines
305-340).  The adapter call comes first; only on its success is the
database row updated.  Any error is logged and re-raised, leaving the
database unchanged. -/
def update_listing_stock (env : Env) (db : DB) (listing_id : String) (quantity : Nat)
    (marketplace : String) : Except PyErr Unit × DB :=
  match dlookup env.clients marketplace with
  | none => (.error (.marketplace ("Unsupported marketplace: " ++ marketplace)), db)
  | some client =>
    match client.update_stock listing_id quantity with
    | .error e => (.error e, db)
    | .ok _ =>
      match db.conn with
      | some msg => (.error (.unexpected msg), db)
      | none => (.ok (), writeStockUpdate db listing_id quantity env.now)

/-- CrossPlatformSync.delist_item (cross_platform_sync.py lines 342-375).
Same shape as update_listing_stock with end_listing and the ended-status
write. -/
def delist_item (env : Env) (db : DB) (listing_id : String) (marketplace : String) :
    Except PyErr Unit × DB :=
  match dlookup env.clients marketplace with
  | none => (.error (.marketplace ("Unsupported marketplace: " ++ marketplace)), db)
  | some client =>
    match client.end_listing listing_id with
    | .error e => (.error e, db)
    | .ok _ =>
      match db.conn with
      | some msg => (.error (.unexpected msg), db)
      | none => (.ok (), writeDelist db listing_id env.now)

/-- Per-listing entry of the listing_results aggregate built by
sync_inventory_levels before the updates are executed. -/
inductive ListingAction where
  | delisted (reason : String)
  | updated (new_stock : Nat)
deriving DecidableEq, Repr

/-- Result of sync_inventory_levels when it returns. -/
inductive SyncResult where
  | noActive (item_id : String)
  | success (item_id : String) (total_stock : Nat) (allocations : List (String × Nat))
      (listing_results : List (String × ListingAction))
deriving DecidableEq, Repr

/-- Active listings of an item (the find_many query of
sync_inventory_levels). -/
def syncActiveListings (db : DB) (item_id : String) : List ListingRec :=
  db.listings.filter (fun l => l.itemId == item_id && l.status == "active")

/-- The (listing, marketplace, allocated stock) work units generated by
the nested loops of sync_inventory_levels (lines 197-225), in iteration
order over the allocation dict and the listing list. -/
def syncPairs (listings : List ListingRec) (allocations : List (String × Nat)) :
    List (ListingRec × String × Nat) :=
  allocations.foldl (fun acc p =>
    acc ++ (listings.filter (fun l => l.marketplace == p.1)).map (fun l => (l, p.1, p.2))) []

/-- Outcome of one scheduled update task: a delist when the allocated
stock is 0, otherwise a stock update.  Only the raised-or-not outcome of
the task is aggregated; each task starts from the database state read
before scheduling. -/
def syncPairTask (env : Env) (db : DB) (pr : ListingRec × String × Nat) : Except PyErr Unit :=
  if pr.2.2 == 0 then (delist_item env db pr.1.id pr.2.1).1
  else (update_listing_stock env db pr.1.id pr.2.2 pr.2.1).1

/-- The listing_results entry recorded for one work unit, written before
the task executes (lines 209-212 and 222-225). -/
def syncPairResult (pr : ListingRec × String × Nat) : String × ListingAction :=
  if pr.2.2 == 0 then (pr.1.id, .delisted "no_stock") else (pr.1.id, .updated pr.2.2)

/-- asyncio.gather(*tasks) with the default return_exceptions=False: the
join succeeds only when every task succeeded, and otherwise propagates a
failing task's exception. -/
def gatherAll : List (Except PyErr Unit) → Except PyErr Unit
  | [] => .ok ()
  | .error e :: _ => .error e
  | .ok _ :: ts => gatherAll ts

/-- CrossPlatformSync.sync_inventory_levels (cross_platform_sync.py lines
151-240).  Loads active listings, allocates stock over the distinct
marketplaces, records one optimistic listing_results entry per
(marketplace, listing) pair, then awaits all update tasks; the except
block re-raises any exception. -/
def sync_inventory_levels (env : Env) (db : DB) (item_id : String) (total_stock : Nat) :
    Except PyErr SyncResult :=
  match db.conn with
  | some msg => .error (.unexpected msg)
  | none =>
    let listings := syncActiveListings db item_id
    if listings.isEmpty then .ok (.noActive item_id)
    else
      match allocate_inventory total_stock (dedupFirst (listings.map (fun l => l.marketplace))) db with
      | .error e => .error e
      | .ok allocations =>
        let pairs := syncPairs listings allocations
        match gatherAll (pairs.map (syncPairTask env db)) with
        | .error e => .error e
        | .ok _ => .ok (.success item_id total_stock allocations (pairs.map syncPairResult))

/-- One entry of the platform_results dict built by
create_or_update_listing. -/
inductive PlatformResult where
  | success (external_id : Option String) (url : Option String) (timestamp : PyDateTime)
  | error (msg : String)
deriving DecidableEq, Repr

/-- Aggregate returned by create_or_update_listing. -/
structure CreateAggregate where
  status : String
  platform_results : List (String × PlatformResult)
  sync_timestamp : PyDateTime
deriving DecidableEq, Repr

/-- Target marketplaces of create_or_update_listing: the argument when it
is a truthy (non-empty) list, otherwise all registered clients. -/
def targetMarketplaces (env : Env) (marketplaces : Option (List String)) : List String :=
  match marketplaces with
  | none => env.clients.map Prod.fst
  | some [] => env.clients.map Prod.fst
  | some ms => ms

/-- Entry recorded for one marketplace by the loop body of
create_or_update_listing (lines 262-297): an unsupported marketplace, a
caught MarketplaceError and a caught unexpected error all become
structured error entries; a successful adapter response becomes a success
entry. -/
def platformEntryFor (env : Env) (listing_data : ListingData) (marketplace : String) :
    PlatformResult :=
  match dlookup env.clients marketplace with
  | none => .error ("Unsupported marketplace: " ++ marketplace)
  | some client =>
    match client.create_listing ⟨listing_data, marketplace, env.now⟩ with
    | .ok resp => .success resp.external_id resp.url env.now
    | .error (.marketplace msg) => .error msg
    | .error (.unexpected msg) => .error ("Unexpected error: " ++ msg)

/-- The per-marketplace loop of create_or_update_listing, building the
results dict in iteration order. -/
def createLoop (env : Env) (listing_data : ListingData) :
    List String → List (String × PlatformResult) → List (String × PlatformResult)
  | [], results => results
  | m :: t, results => createLoop env listing_data t
      (dinsert m (platformEntryFor env listing_data m) results)

/-- CrossPlatformSync.create_or_update_listing (cross_platform_sync.py
lines 242-303).  Every per-marketplace failure is caught inside the loop,
so the aggregate always comes back with status completed. -/
def create_or_update_listing (env : Env) (listing_data : ListingData)
    (marketplaces : Option (List String)) : CreateAggregate :=
  { status := "completed",
    platform_results := createLoop env listing_data (targetMarketplaces env marketplaces) [],
    sync_timestamp := env.now }

/-- Result of MarketResearchJob.predict_seasonal_demand.  The two early
insufficient-data returns carry no monthly_distribution key; the default
empty list models that. -/
structure SeasonalResult where
  pattern : String
  peak_months : List Nat
  monthly_distribution : List (Nat × Nat) := []
  confidence : Frac
deriving DecidableEq, Repr

/-- Item query of predict_seasonal_demand: items of the category that
have at least one listing with at least one order created within the
trailing 365 days.  Note that only the item selection is date-filtered;
the included orders are not. -/
def seasonalItems (db : DB) (category : String) (oneYearAgo : Frac) : List ItemRec :=
  db.items.filter (fun it =>
    it.detectedCategory == category &&
      it.listings.any (fun l => l.orders.any (fun o => Frac.leB oneYearAgo o.createdAt.absHours)))

/-- Monthly completed-order counts aggregated by the nested loops of
predict_seasonal_demand (market_research_jobs.py lines 221-227): every
completed order of every listing of every selected item is counted under
its creation month, with no date filter. -/
def monthlyOrdersOf (items : List ItemRec) : List (Nat × Nat) :=
  items.foldl (fun acc it =>
    it.listings.foldl (fun acc2 l =>
      l.orders.foldl (fun acc3 o =>
        if o.status == "completed" then dincr o.createdAt.month acc3 else acc3) acc2) acc) []

/-- Largest value of a nonempty dict of monthly counts (Python
max(monthly_orders.values())); 0 on the unreachable empty case. -/
def maxMonthlyCount (monthly : List (Nat × Nat)) : Nat :=
  (monthly.map Prod.snd).foldl max 0

/-- MarketResearchJob.predict_seasonal_demand (market_research_jobs.py
lines 175-273).  now models datetime.now(); the only raise path is a
database fault, re-raised by the except block. -/
def predict_seasonal_demand (db : DB) (now : PyDateTime) (category : String) :
    Except PyErr SeasonalResult :=
  match db.conn with
  | some msg => .error (.unexpected msg)
  | none =>
    let oneYearAgo := now.absHours.fsub ⟨365 * 24, 1⟩
    let items := seasonalItems db category oneYearAgo
    if items.isEmpty then
      .ok { pattern := "insufficient_data", peak_months := [], confidence := ⟨0, 1⟩ }
    else
      let monthly := monthlyOrdersOf items
      if monthly.isEmpty then
        .ok { pattern := "insufficient_data", peak_months := [], confidence := ⟨0, 1⟩ }
      else
        let avgOrders := Frac.fdiv (Frac.ofNat (monthly.map Prod.snd).sum)
          (Frac.ofNat monthly.length)
        let peakMonths := (monthly.filter
          (fun p => Frac.ltB avgOrders (Frac.ofNat p.2))).map Prod.fst
        if monthly.length < 6 then
          .ok { pattern := "insufficient_data", peak_months := peakMonths,
                monthly_distribution := monthly, confidence := ⟨0, 1⟩ }
        else
          let sortedPeaks := stableSortBy (fun a b => decide (a < b)) peakMonths
          let gaps := (sortedPeaks.zip sortedPeaks.tail).map (fun p => p.2 - p.1)
          let pattern :=
            if sortedPeaks.length ≤ 2 then "minimal_seasonality"
            else if 4 < gaps.foldl Nat.max 0 then "multi_season"
            else "single_season"
          let consistency := Frac.fdiv (Frac.ofNat monthly.length) ⟨12, 1⟩
          let peakStrength := Frac.fdiv (Frac.ofNat (maxMonthlyCount monthly)) avgOrders
          let confidence := Frac.fmin
            ((consistency.fmul ⟨7, 10⟩).fadd ((peakStrength.fsub ⟨1, 1⟩).fmul ⟨3, 10⟩)) ⟨1, 1⟩
          .ok { pattern := pattern, peak_months := sortedPeaks,
                monthly_distribution := monthly, confidence := confidence }

/-- Per-marketplace price statistics of analyze_competitive_pricing. -/
structure PricePoint where
  average : Frac
  median : Frac
  minPrice : Frac
  maxPrice : Frac
  sample_size : Nat
deriving DecidableEq, Repr

/-- Result of MarketResearchJob.analyze_competitive_pricing.  The
insufficient-data returns carry no target_price key, modelled by none. -/
structure PricingResult where
  recommendation : String
  target_price : Option Frac := none
  price_points : List (String × PricePoint) := []
  confidence : Frac
deriving DecidableEq, Repr

/-- Competitor prices grouped by marketplace (market_research_jobs.py
lines 306-312): a truthy competitorPrices JSON value contributes its
prices list, and the defaultdict access creates the marketplace key even
when that list is empty. -/
def marketplacePricesOf (item : ItemRec) : List (String × List Frac) :=
  item.listings.foldl (fun acc l =>
    l.marketResearch.foldl (fun acc2 r =>
      match r.competitorPrices with
      | some ps => dextend l.marketplace ps acc2
      | none => acc2) acc) []

/-- Python min over a nonempty list (0 on the unreachable empty case). -/
def pyMinList (l : List Frac) : Frac :=
  match l with
  | [] => ⟨0, 1⟩
  | x :: t => t.foldl Frac.fmin x

/-- Python max over a nonempty list (0 on the unreachable empty case). -/
def pyMaxList (l : List Frac) : Frac :=
  match l with
  | [] => ⟨0, 1⟩
  | x :: t => t.foldl Frac.fmax x

/-- Price statistics of one nonempty price sample list
(market_research_jobs.py lines 326-335). -/
def pricePointFor (prices : List Frac) : PricePoint :=
  { average := Frac.fdiv (Frac.sumList prices) (Frac.ofNat prices.length),
    median := (stableSortBy Frac.ltB prices).getD (prices.length / 2) ⟨0, 1⟩,
    minPrice := pyMinList prices,
    maxPrice := pyMaxList prices,
    sample_size := prices.length }

/-- The price_points dict: one entry per marketplace whose sample list is
nonempty, in grouping order. -/
def pricePointsOf (marketplacePrices : List (String × List Frac)) :
    List (String × PricePoint) :=
  marketplacePrices.foldl (fun acc p =>
    if p.2.isEmpty then acc else acc ++ [(p.1, pricePointFor p.2)]) []

/-- Lowest per-marketplace average (Python min over the generator). -/
def lowestAvgOf (points : List (String × PricePoint)) : Frac :=
  pyMinList (points.map (fun p => p.2.average))

/-- Highest per-marketplace average (Python max over the generator). -/
def highestAvgOf (points : List (String × PricePoint)) : Frac :=
  pyMaxList (points.map (fun p => p.2.average))

/-- Confidence of the two-or-more-marketplaces recommendation:
min(sum of sample sizes / 20, 1.0). -/
def spreadConfidenceOf (points : List (String × PricePoint)) : Frac :=
  Frac.fmin (Frac.fdiv (Frac.ofNat (points.map (fun p => p.2.sample_size)).sum) ⟨20, 1⟩) ⟨1, 1⟩

/-- MarketResearchJob.analyze_competitive_pricing (market_research_jobs.py
lines 275-375).  When no marketplace key exists at all the function
returns insufficient_data; when keys exist but every sample list is
empty, price_points is empty and next(iter(price_points.values())) raises
StopIteration, re-raised by the except block. -/
def analyze_competitive_pricing (db : DB) (item_id : String) : Except PyErr PricingResult :=
  match db.conn with
  | some msg => .error (.unexpected msg)
  | none =>
    match db.items.find? (fun it => it.id == item_id) with
    | none => .ok { recommendation := "insufficient_data", confidence := ⟨0, 1⟩ }
    | some item =>
      let marketplacePrices := marketplacePricesOf item
      if marketplacePrices.isEmpty then
        .ok { recommendation := "insufficient_data", confidence := ⟨0, 1⟩ }
      else
        let points := pricePointsOf marketplacePrices
        if 2 ≤ points.length then
          let lowestAvg := lowestAvgOf points
          let highestAvg := highestAvgOf points
          if Frac.ltB (highestAvg.fsub lowestAvg) (lowestAvg.fmul ⟨1, 10⟩) then
            .ok { recommendation := "match_market", target_price := some lowestAvg,
                  price_points := points, confidence := spreadConfidenceOf points }
          else
            .ok { recommendation := "competitive_advantage",
                  target_price := some (highestAvg.fmul ⟨95, 100⟩),
                  price_points := points, confidence := spreadConfidenceOf points }
        else
          match points with
          | [] => .error (.unexpected "StopIteration")
          | p :: _ =>
            .ok { recommendation := "single_marketplace", target_price := some p.2.average,
                  price_points := points, confidence := ⟨1, 2⟩ }

/-- Database whose connection is down, for concrete fault runs. -/
def dbFault : DB := { conn := some "db connection lost" }

/-- The performance dict keeps the queried marketplaces as its keys, in
order. -/
theorem buildPerf_map_fst (db : DB) : ∀ (ms : List String) (perf : List (String × Frac)),
    buildPerf db ms = .ok perf → perf.map Prod.fst = ms := by
  intro ms
  induction ms with
  | nil =>
    intro perf h
    simp only [buildPerf, Except.ok.injEq] at h
    subst h
    rfl
  | cons m t ih =>
    intro perf h
    unfold buildPerf at h
    cases hw : weightFor db m with
    | error e => rw [hw] at h; exact absurd h (by simp)
    | ok w =>
      rw [hw] at h
      cases hr : buildPerf db t with
      | error e => rw [hr] at h; exact absurd h (by simp)
      | ok rest =>
        rw [hr] at h
        simp only [Except.ok.injEq] at h
        subst h
        simp [ih rest hr]

/-- Base allocations keep the performance keys. -/
theorem baseAllocationsOf_map_fst (total_stock : Nat) (perf : List (String × Frac)) :
    (baseAllocationsOf total_stock perf).map Prod.fst = perf.map Prod.fst := by
  simp [baseAllocationsOf]

/-- Every base allocation is at least one unit. -/
theorem baseAllocationsOf_one_le (total_stock : Nat) (perf : List (String × Frac)) :
    ∀ p ∈ baseAllocationsOf total_stock perf, 1 ≤ p.2 := by
  intro p hp
  simp only [baseAllocationsOf, List.mem_map] at hp
  obtain ⟨q, _, hq⟩ := hp
  subst hq
  exact Nat.le_max_left 1 _

/-- A dict whose values are all at least one sums to at least its
length. -/
theorem length_le_sumValues (d : List (String × Nat)) (h : ∀ p ∈ d, 1 ≤ p.2) :
    d.length ≤ sumValues d := by
  induction d with
  | nil => simp [sumValues]
  | cons p t ih =>
    have h1 := h p (List.mem_cons_self p t)
    have h2 := ih (fun q hq => h q (List.mem_cons_of_mem p hq))
    simp only [sumValues, List.map_cons, List.sum_cons, List.length_cons] at h2 ⊢
    omega

/-- Incrementing one key leaves the key list unchanged. -/
theorem bumpKey_map_fst (d : List (String × Nat)) (k : String) :
    (bumpKey d k).map Prod.fst = d.map Prod.fst := by
  induction d with
  | nil => rfl
  | cons p t ih =>
    cases p with
    | mk k2 v =>
      by_cases hk : k2 = k
      · simp [bumpKey, hk]
      · simp [bumpKey, hk, ih]

/-- Incrementing an existing key adds one to the value sum. -/
theorem bumpKey_sumValues (d : List (String × Nat)) (k : String)
    (h : k ∈ d.map Prod.fst) : sumValues (bumpKey d k) = sumValues d + 1 := by
  induction d with
  | nil => simp at h
  | cons p t ih =>
    cases p with
    | mk k2 v =>
      by_cases hk : k2 = k
      · simp [bumpKey, hk, sumValues]
        omega
      · have hmem : k ∈ t.map Prod.fst := by
          simp only [List.map_cons, List.mem_cons] at h
          rcases h with h | h
          · exact absurd h.symm hk
          · exact h
        simp only [bumpKey, hk, if_false, sumValues, List.map_cons, List.sum_cons]
        have := ih hmem
        simp only [sumValues] at this
        omega

/-- Stable insertion only adds the inserted element. -/
theorem stableInsert_mem {α : Type} (before : α → α → Bool) (x y : α) :
    ∀ (l : List α), y ∈ stableInsert before x l → y = x ∨ y ∈ l := by
  intro l
  induction l with
  | nil => intro h; simpa [stableInsert] using h
  | cons z t ih =>
    intro h
    simp only [stableInsert] at h
    by_cases hb : before x z
    · rw [if_pos hb] at h
      simp only [List.mem_cons] at h
      rcases h with h | h
      · exact Or.inl h
      · exact Or.inr (List.mem_cons.mpr h)
    · rw [if_neg hb] at h
      simp only [List.mem_cons] at h
      rcases h with h | h
      · exact Or.inr (List.mem_cons.mpr (Or.inl h))
      · rcases ih h with h2 | h2
        · exact Or.inl h2
        · exact Or.inr (List.mem_cons.mpr (Or.inr h2))

/-- Stable insertion grows the length by one. -/
theorem stableInsert_length {α : Type} (before : α → α → Bool) (x : α) :
    ∀ (l : List α), (stableInsert before x l).length = l.length + 1 := by
  intro l
  induction l with
  | nil => rfl
  | cons z t ih =>
    simp only [stableInsert]
    by_cases hb : before x z
    · simp [hb]
    · simp [hb, ih]

/-- Elements of the stable sort come from the input (stated over the
foldl accumulator). -/
theorem stableSortBy_foldl_mem {α : Type} (before : α → α → Bool) (y : α) :
    ∀ (l acc : List α),
      y ∈ l.foldl (fun a x => stableInsert before x a) acc → y ∈ l ∨ y ∈ acc := by
  intro l
  induction l with
  | nil => intro acc h; exact Or.inr h
  | cons x t ih =>
    intro acc h
    simp only [List.foldl_cons] at h
    rcases ih (stableInsert before x acc) h with h2 | h2
    · exact Or.inl (List.mem_cons_of_mem x h2)
    · rcases stableInsert_mem before x y acc h2 with h3 | h3
      · exact Or.inl (by simp [h3])
      · exact Or.inr h3

/-- Elements of the stable sort come from the input. -/
theorem stableSortBy_mem {α : Type} (before : α → α → Bool) (y : α) (l : List α)
    (h : y ∈ stableSortBy before l) : y ∈ l := by
  rcases stableSortBy_foldl_mem before y l [] h with h2 | h2
  · exact h2
  · simp at h2

/-- The stable sort preserves length (stated over the foldl
accumulator). -/
theorem stableSortBy_foldl_length {α : Type} (before : α → α → Bool) :
    ∀ (l acc : List α),
      (l.foldl (fun a x => stableInsert before x a) acc).length = l.length + acc.length := by
  intro l
  induction l with
  | nil => intro acc; simp
  | cons x t ih =>
    intro acc
    simp only [List.foldl_cons, ih, stableInsert_length, List.length_cons]
    omega

/-- The stable sort preserves length. -/
theorem stableSortBy_length {α : Type} (before : α → α → Bool) (l : List α) :
    (stableSortBy before l).length = l.length := by
  simpa using stableSortBy_foldl_length before l []

/-- Distributing units never changes the key list. -/
theorem distributeRemaining_map_fst (sorted : List String) (d : List (String × Nat)) :
    ∀ (n : Nat), (distributeRemaining sorted d n).map Prod.fst = d.map Prod.fst := by
  intro n
  induction n with
  | zero => rfl
  | succ k ih => simp [distributeRemaining, bumpKey_map_fst, ih]

/-- Distributing n units over existing keys adds n to the value sum. -/
theorem distributeRemaining_sumValues (sorted : List String) (d : List (String × Nat))
    (hne : sorted ≠ []) (hsub : ∀ x ∈ sorted, x ∈ d.map Prod.fst) :
    ∀ (n : Nat), sumValues (distributeRemaining sorted d n) = sumValues d + n := by
  intro n
  induction n with
  | zero => rfl
  | succ k ih =>
    have hlen : 0 < sorted.length := List.length_pos.mpr hne
    have hidx : k % sorted.length < sorted.length := Nat.mod_lt k hlen
    have hkey : sorted.getD (k % sorted.length) "" ∈ sorted := by
      rw [List.getD_eq_getElem sorted "" hidx]
      exact List.getElem_mem hidx
    have hkeyd : sorted.getD (k % sorted.length) "" ∈
        (distributeRemaining sorted d k).map Prod.fst := by
      rw [distributeRemaining_map_fst]
      exact hsub _ hkey
    simp only [distributeRemaining]
    rw [bumpKey_sumValues _ _ hkeyd, ih]
    omega

/-- Sum over range n of a base amount plus a unit for indices below rem. -/
theorem sum_range_base_extra (base rem : Nat) : ∀ (n : Nat),
    ((List.range n).map (fun i => base + if i < rem then 1 else 0)).sum
      = n * base + min rem n := by
  intro n
  induction n with
  | zero => simp
  | succ k ih =>
    rw [List.range_succ]
    simp only [List.map_append, List.sum_append, ih, List.map_cons, List.map_nil,
      List.sum_cons, List.sum_nil]
    have hmul : (k + 1) * base = k * base + base := by ring
    rw [hmul]
    by_cases hk : k < rem
    · have h1 : min rem k = k := Nat.min_eq_right (Nat.le_of_lt hk)
      have h2 : min rem (k + 1) = k + 1 := Nat.min_eq_right hk
      rw [if_pos hk, h1, h2]
      omega
    · have h1 : min rem k = rem := Nat.min_eq_left (Nat.le_of_not_lt hk)
      have h2 : min rem (k + 1) = rem := Nat.min_eq_left (Nat.le_succ_of_le (Nat.le_of_not_lt hk))
      rw [if_neg hk, h1, h2]
      omega

/-- The even-distribution fallback always sums to the total stock. -/
theorem fallbackAllocation_sumValues (total_stock : Nat) (marketplaces : List String)
    (hne : marketplaces ≠ []) :
    sumValues (fallbackAllocation total_stock marketplaces) = total_stock := by
  have hlen : 0 < marketplaces.length := List.length_pos.mpr hne
  have hmod : total_stock % marketplaces.length < marketplaces.length :=
    Nat.mod_lt total_stock hlen
  unfold fallbackAllocation sumValues
  rw [List.map_map]
  have hcomp : (Prod.snd ∘ fun p : Nat × String =>
      (p.2, total_stock / marketplaces.length +
        if p.1 < total_stock % marketplaces.length then 1 else 0))
      = (fun i => total_stock / marketplaces.length +
          if i < total_stock % marketplaces.length then 1 else 0) ∘ Prod.fst := by
    funext p
    rfl
  rw [hcomp, ← List.map_map, List.enum_map_fst, sum_range_base_extra]
  have hdm : marketplaces.length * (total_stock / marketplaces.length)
      + total_stock % marketplaces.length = total_stock :=
    Nat.div_add_mod total_stock marketplaces.length
  omega

/-- A list that is not empty has isEmpty = false. -/
theorem isEmpty_false_of_ne_nil {α : Type} (l : List α) (h : l ≠ []) :
    l.isEmpty = false := by
  cases l with
  | nil => exact absurd rfl h
  | cons x t => rfl

/-- C8 counterexample: calling allocate_inventory with an empty channel
list does not raise; it returns the empty map.  This refutes the claim
that an empty channel set raises synchronously. -/
theorem allocate_empty_channels_counterexample :
    allocate_inventory 7 [] dbEmpty = .ok [] ∧
    (allocate_inventory 7 [] dbEmpty).isOk = true := by
  exact ⟨rfl, rfl⟩

/-- C8 amended: allocate_inventory with an empty channel list returns the
empty allocation map, for every total stock and database state, without
raising. -/
theorem allocate_empty_channels_returns_empty :
    ∀ (total_stock : Nat) (db : DB),
      allocate_inventory total_stock [] db = .ok [] := by
  intro total_stock db
  rfl

/-- C3: allocate_inventory never raises, and whenever the weighted
computation faults internally the result is the even-distribution
fallback, in which every channel receives total_stock div n and exactly
the first total_stock mod n channels of the input order receive one
extra unit. -/
theorem allocate_fallback_on_fault (total_stock : Nat) (marketplaces : List String) (db : DB)
    (e : PyErr) (hne : marketplaces ≠ [])
    (hfault : weightedAllocation total_stock marketplaces db = .error e) :
    (∀ (db2 : DB), (allocate_inventory total_stock marketplaces db2).isOk = true) ∧
    allocate_inventory total_stock marketplaces db
      = .ok (fallbackAllocation total_stock marketplaces) ∧
    ∀ (i : Nat) (hi : i < marketplaces.length),
      (fallbackAllocation total_stock marketplaces)[i]? =
        some (marketplaces.get ⟨i, hi⟩,
          total_stock / marketplaces.length +
            if i < total_stock % marketplaces.length then 1 else 0) := by
  have hie := isEmpty_false_of_ne_nil marketplaces hne
  refine ⟨?_, ?_, ?_⟩
  · intro db2
    unfold allocate_inventory
    rw [hie]
    cases h2 : weightedAllocation total_stock marketplaces db2 <;> rfl
  · unfold allocate_inventory
    rw [hie, hfault]
    rfl
  · intro i hi
    have hi2 : i < marketplaces.enum.length := by simpa [List.enum_length] using hi
    simp only [fallbackAllocation, List.getElem?_map, List.getElem?_eq_getElem hi2,
      List.getElem_enum, Option.map_some, List.get_eq_getElem]
    rfl

/-- C3 witness: a database connection fault makes the weighted path
raise internally, and allocate_inventory answers with the fallback. -/
theorem allocate_fallback_on_fault_witness :
    (["a", "b"] ≠ ([] : List String)) ∧
    weightedAllocation 5 ["a", "b"] dbFault = .error (.unexpected "db connection lost") ∧
    ((∀ (db2 : DB), (allocate_inventory 5 ["a", "b"] db2).isOk = true) ∧
      allocate_inventory 5 ["a", "b"] dbFault = .ok (fallbackAllocation 5 ["a", "b"]) ∧
      ∀ (i : Nat) (hi : i < (["a", "b"] : List String).length),
        (fallbackAllocation 5 ["a", "b"])[i]? =
          some ((["a", "b"] : List String).get ⟨i, hi⟩,
            5 / (["a", "b"] : List String).length +
              if i < 5 % (["a", "b"] : List String).length then 1 else 0)) := by
  refine ⟨by decide, by decide, ?_⟩
  exact allocate_fallback_on_fault 5 ["a", "b"] dbFault (.unexpected "db connection lost")
    (by decide) (by decide)

/-- C9: on the weighted path with fewer units of stock than channels,
every channel still gets at least one unit and the value sum strictly
exceeds the total stock; the remainder step never removes units. -/
theorem weighted_base_exceeds_total (total_stock : Nat) (marketplaces : List String) (db : DB)
    (r : List (String × Nat)) (hts : total_stock < marketplaces.length)
    (hok : weightedAllocation total_stock marketplaces db = .ok r) :
    (∀ p ∈ r, 1 ≤ p.2) ∧ total_stock < sumValues r := by
  unfold weightedAllocation at hok
  cases hperf : buildPerf db marketplaces with
  | error e => rw [hperf] at hok; exact absurd hok (by simp)
  | ok perf =>
    rw [hperf] at hok
    simp only at hok
    have hkeys : perf.map Prod.fst = marketplaces := buildPerf_map_fst db marketplaces perf hperf
    have hplen : perf.length = marketplaces.length := by
      rw [← hkeys, List.length_map]
    have hone := baseAllocationsOf_one_le total_stock perf
    have hblen : (baseAllocationsOf total_stock perf).length = marketplaces.length := by
      rw [← hplen]
      simp [baseAllocationsOf]
    have hsum : marketplaces.length ≤ sumValues (baseAllocationsOf total_stock perf) := by
      rw [← hblen]
      exact length_le_sumValues _ hone
    have hneg : ¬ (0 < (total_stock : Int) - (sumValues (baseAllocationsOf total_stock perf) : Int)) := by
      omega
    rw [if_neg hneg] at hok
    simp only [Except.ok.injEq] at hok
    subst hok
    exact ⟨hone, by omega⟩

/-- C1 counterexample: on the weighted path with total stock 0 and one
fresh channel, the minimum-one-unit rule allocates 1 unit, so the value
sum is 1 and not the total stock 0.  This refutes the claim that the sum
equals the total stock on the weighted path for every total stock. -/
theorem allocate_sum_counterexample :
    allocate_inventory 0 ["ebay"] dbEmpty = .ok [("ebay", 1)] ∧
    weightedAllocation 0 ["ebay"] dbEmpty = .ok [("ebay", 1)] ∧
    sumValues [("ebay", 1)] ≠ 0 := by
  exact ⟨by decide, by decide, by decide⟩

/-- C1 amended: the fallback path always sums to the total stock, and the
weighted path sums to the total stock whenever the base allocations do
not already exceed it (the minimum-one-unit rule can push the base sum
above a small total stock, in which case the sum exceeds the total
stock instead; see the boundary theorem for claim C9). -/
theorem allocate_sum_invariant (total_stock : Nat) (marketplaces : List String) (db : DB)
    (perf : List (String × Frac)) (hnd : marketplaces.Nodup) (hne : marketplaces ≠ [])
    (hperf : buildPerf db marketplaces = .ok perf)
    (hbase : sumValues (baseAllocationsOf total_stock perf) ≤ total_stock) :
    sumValues (fallbackAllocation total_stock marketplaces) = total_stock ∧
    ∃ r, weightedAllocation total_stock marketplaces db = .ok r ∧
      allocate_inventory total_stock marketplaces db = .ok r ∧
      sumValues r = total_stock := by
  have hie := isEmpty_false_of_ne_nil marketplaces hne
  refine ⟨fallbackAllocation_sumValues total_stock marketplaces hne, ?_⟩
  have hkeys : (baseAllocationsOf total_stock perf).map Prod.fst = marketplaces := by
    rw [baseAllocationsOf_map_fst]
    exact buildPerf_map_fst db marketplaces perf hperf
  by_cases hrem : 0 < (total_stock : Int) - (sumValues (baseAllocationsOf total_stock perf) : Int)
  · set sorted := stableSortBy
      (fun a b => Frac.ltB (dlookupD perf b ⟨0, 1⟩) (dlookupD perf a ⟨0, 1⟩)) marketplaces
      with hsorted
    have hsortne : sorted ≠ [] := by
      intro h
      have := stableSortBy_length
        (fun a b => Frac.ltB (dlookupD perf b ⟨0, 1⟩) (dlookupD perf a ⟨0, 1⟩)) marketplaces
      rw [← hsorted, h] at this
      exact hne (List.length_eq_zero.mp this.symm)
    have hsub : ∀ x ∈ sorted, x ∈ (baseAllocationsOf total_stock perf).map Prod.fst := by
      intro x hx
      rw [hkeys]
      exact stableSortBy_mem _ x marketplaces hx
    refine ⟨distributeRemaining sorted (baseAllocationsOf total_stock perf)
      ((total_stock : Int) - (sumValues (baseAllocationsOf total_stock perf) : Int)).toNat,
      ?_, ?_, ?_⟩
    · unfold weightedAllocation
      rw [hperf]
      simp only [hsorted]
      rw [if_pos hrem]
    · unfold allocate_inventory weightedAllocation
      rw [hie, hperf]
      simp only [hsorted]
      rw [if_pos hrem]
      rfl
    · rw [distributeRemaining_sumValues sorted _ hsortne hsub]
      omega
  · refine ⟨baseAllocationsOf total_stock perf, ?_, ?_, ?_⟩
    · unfold weightedAllocation
      rw [hperf]
      simp only
      rw [if_neg hrem]
    · unfold allocate_inventory weightedAllocation
      rw [hie, hperf]
      simp only
      rw [if_neg hrem]
      rfl
    · omega

/-- C1 witness: ten units over two fresh channels give five units each on
the weighted path, and the fallback for the same input also sums to
ten. -/
theorem allocate_sum_invariant_witness :
    (["a", "b"] : List String).Nodup ∧
    (["a", "b"] ≠ ([] : List String)) ∧
    buildPerf dbEmpty ["a", "b"] = .ok [("a", ⟨1, 1⟩), ("b", ⟨1, 1⟩)] ∧
    sumValues (baseAllocationsOf 10 [("a", ⟨1, 1⟩), ("b", ⟨1, 1⟩)]) ≤ 10 ∧
    (sumValues (fallbackAllocation 10 ["a", "b"]) = 10 ∧
      ∃ r, weightedAllocation 10 ["a", "b"] dbEmpty = .ok r ∧
        allocate_inventory 10 ["a", "b"] dbEmpty = .ok r ∧
        sumValues r = 10) := by
  refine ⟨by decide, by decide, by decide, by decide, ?_⟩
  exact allocate_sum_invariant 10 ["a", "b"] dbEmpty [("a", ⟨1, 1⟩), ("b", ⟨1, 1⟩)]
    (by decide) (by decide) (by decide) (by decide)

/-- Adapter whose network calls all fail with a MarketplaceError. -/
def clientFailing : MarketplaceClient :=
  { update_stock := fun _ _ => .error (.marketplace "network down"),
    end_listing := fun _ => .error (.marketplace "network down"),
    create_listing := fun _ => .error (.marketplace "network down") }

/-- Adapter whose calls all succeed. -/
def clientOk : MarketplaceClient :=
  { update_stock := fun _ _ => .ok (),
    end_listing := fun _ => .ok (),
    create_listing := fun _ => .ok { external_id := some "ext-1", url := some "u-1" } }

/-- Registry with one failing channel A and one healthy channel B. -/
def envTwo : Env := { clients := [("A", clientFailing), ("B", clientOk)] }

/-- Two active listings of one item, one per channel, with no order
history. -/
def dbTwo : DB :=
  { listings := [ { id := "L1", itemId := "I1", marketplace := "A" },
                  { id := "L2", itemId := "I1", marketplace := "B" } ] }

/-- A gather join propagates the failure of any member task. -/
theorem gatherAll_error_of_mem (tasks : List (Except PyErr Unit)) (t : Except PyErr Unit)
    (ht : t ∈ tasks) (he : t.isOk = false) : (gatherAll tasks).isOk = false := by
  induction tasks with
  | nil => simp at ht
  | cons h0 rest ih =>
    cases h0 with
    | error e => rfl
    | ok u =>
      simp only [gatherAll]
      rcases List.mem_cons.mp ht with h1 | h1
      · rw [h1] at he
        exact Bool.noConfusion he
      · exact ih h1

/-- C2 counterexample: with channel A failing and channel B healthy, both
holding one active listing of the same item, sync_inventory_levels raises
channel A's error instead of returning a completed aggregate with a
structured error entry.  This refutes the claim that one pair's failure
never aborts the overall call. -/
theorem sync_partial_failure_counterexample :
    (clientFailing.update_stock "L1" 2).isOk = false ∧
    (clientOk.update_stock "L2" 2).isOk = true ∧
    sync_inventory_levels envTwo dbTwo "I1" 4 = .error (.marketplace "network down") := by
  exact ⟨by decide, by decide, by decide⟩

/-- C2 amended: whenever any (channel, listing) pair's update or delist
task fails, sync_inventory_levels raises instead of returning an
aggregate; per-pair errors are not recorded as structured entries. -/
theorem sync_raises_on_pair_failure (env : Env) (db : DB) (item_id : String)
    (total_stock : Nat) (allocations : List (String × Nat))
    (hconn : db.conn = none)
    (hact : syncActiveListings db item_id ≠ [])
    (halloc : allocate_inventory total_stock
        (dedupFirst ((syncActiveListings db item_id).map (fun l => l.marketplace))) db
        = .ok allocations)
    (hfail : ∃ pr ∈ syncPairs (syncActiveListings db item_id) allocations,
        (syncPairTask env db pr).isOk = false) :
    (sync_inventory_levels env db item_id total_stock).isOk = false := by
  obtain ⟨pr, hpr, hprfail⟩ := hfail
  have hie := isEmpty_false_of_ne_nil _ hact
  have hgather : (gatherAll ((syncPairs (syncActiveListings db item_id) allocations).map
      (syncPairTask env db))).isOk = false :=
    gatherAll_error_of_mem _ (syncPairTask env db pr) (List.mem_map_of_mem _ hpr) hprfail
  unfold sync_inventory_levels
  rw [hconn]
  simp only [hie, Bool.false_eq_true, if_false, halloc]
  cases hg : gatherAll ((syncPairs (syncActiveListings db item_id) allocations).map
      (syncPairTask env db)) with
  | error e => rfl
  | ok u => rw [hg] at hgather; exact Bool.noConfusion hgather

/-- C2 witness for the amended claim, at the concrete two-channel
scenario of the counterexample input. -/
theorem sync_raises_on_pair_failure_witness :
    dbTwo.conn = none ∧
    syncActiveListings dbTwo "I1" ≠ [] ∧
    allocate_inventory 4 (dedupFirst ((syncActiveListings dbTwo "I1").map
      (fun l => l.marketplace))) dbTwo = .ok [("A", 2), ("B", 2)] ∧
    (∃ pr ∈ syncPairs (syncActiveListings dbTwo "I1") [("A", 2), ("B", 2)],
      (syncPairTask envTwo dbTwo pr).isOk = false) ∧
    (sync_inventory_levels envTwo dbTwo "I1" 4).isOk = false := by
  refine ⟨rfl, by decide, by decide, ?_, ?_⟩
  · refine ⟨({ id := "L1", itemId := "I1", marketplace := "A" }, "A", 2), by decide, by decide⟩
  · exact sync_raises_on_pair_failure envTwo dbTwo "I1" 4 [("A", 2), ("B", 2)]
      rfl (by decide) (by decide)
      ⟨({ id := "L1", itemId := "I1", marketplace := "A" }, "A", 2), by decide, by decide⟩

/-- C10: update_listing_stock and delist_item are atomic on adapter
failure: when the adapter call raises, the operation re-raises that error
and the listing storage is unchanged; the storage write happens only
after the adapter call succeeds. -/
theorem update_delist_atomic (env : Env) (db : DB) (listing_id : String) (quantity : Nat)
    (marketplace : String) (client : MarketplaceClient)
    (hc : dlookup env.clients marketplace = some client) :
    (∀ e, client.update_stock listing_id quantity = .error e →
      update_listing_stock env db listing_id quantity marketplace = (.error e, db)) ∧
    (∀ e, client.end_listing listing_id = .error e →
      delist_item env db listing_id marketplace = (.error e, db)) ∧
    (db.conn = none → ∀ u, client.update_stock listing_id quantity = .ok u →
      update_listing_stock env db listing_id quantity marketplace =
        (.ok (), writeStockUpdate db listing_id quantity env.now)) ∧
    (db.conn = none → ∀ u, client.end_listing listing_id = .ok u →
      delist_item env db listing_id marketplace =
        (.ok (), writeDelist db listing_id env.now)) := by
  refine ⟨?_, ?_, ?_, ?_⟩
  · intro e he
    simp only [update_listing_stock, hc, he]
  · intro e he
    simp only [delist_item, hc, he]
  · intro hdb u hu
    simp only [update_listing_stock, hc, hu, hdb]
  · intro hdb u hu
    simp only [delist_item, hc, hu, hdb]

/-- C10 witness: a failing adapter on channel A makes the stock update
and the delist re-raise with the database unchanged, while channel B's
healthy adapter leads to the post-success write. -/
theorem update_delist_atomic_witness :
    dlookup envTwo.clients "A" = some clientFailing ∧
    update_listing_stock envTwo dbTwo "L1" 2 "A" = (.error (.marketplace "network down"), dbTwo) ∧
    delist_item envTwo dbTwo "L1" "A" = (.error (.marketplace "network down"), dbTwo) ∧
    dlookup envTwo.clients "B" = some clientOk ∧
    update_listing_stock envTwo dbTwo "L2" 3 "B"
      = (.ok (), writeStockUpdate dbTwo "L2" 3 envTwo.now) ∧
    delist_item envTwo dbTwo "L2" "B" = (.ok (), writeDelist dbTwo "L2" envTwo.now) := by
  refine ⟨rfl, ?_, ?_, rfl, ?_, ?_⟩
  · exact (update_delist_atomic envTwo dbTwo "L1" 2 "A" clientFailing rfl).1 _ rfl
  · exact (update_delist_atomic envTwo dbTwo "L1" 0 "A" clientFailing rfl).2.1 _ rfl
  · exact (update_delist_atomic envTwo dbTwo "L2" 3 "B" clientOk rfl).2.2.1 rfl _ rfl
  · exact (update_delist_atomic envTwo dbTwo "L2" 0 "B" clientOk rfl).2.2.2 rfl _ rfl

/-- Lookup after a dict insertion. -/
theorem dlookup_dinsert {ν : Type} (k k2 : String) (v : ν) :
    ∀ (d : List (String × ν)),
      dlookup (dinsert k v d) k2 = if k = k2 then some v else dlookup d k2 := by
  intro d
  induction d with
  | nil =>
    simp only [dinsert, dlookup]
  | cons p t ih =>
    cases p with
    | mk k3 v3 =>
      by_cases h3 : k3 = k
      · subst h3
        simp only [dinsert, if_pos rfl, dlookup]
        by_cases h4 : k3 = k2 <;> simp [h4]
      · simp only [dinsert, if_neg h3, dlookup]
        by_cases h4 : k3 = k2
        · subst h4
          have : ¬ k = k3 := fun h => h3 h.symm
          simp [this]
        · simp [h4, ih]

/-- Inserting an existing key keeps the key list. -/
theorem dinsert_map_fst_mem {ν : Type} (k : String) (v : ν) :
    ∀ (d : List (String × ν)), k ∈ d.map Prod.fst →
      (dinsert k v d).map Prod.fst = d.map Prod.fst := by
  intro d
  induction d with
  | nil => intro h; simp at h
  | cons p t ih =>
    intro h
    cases p with
    | mk k3 v3 =>
      by_cases h3 : k3 = k
      · simp [dinsert, h3]
      · have hmem : k ∈ t.map Prod.fst := by
          simp only [List.map_cons, List.mem_cons] at h
          rcases h with h | h
          · exact absurd h.symm h3
          · exact h
        simp [dinsert, h3, ih hmem]

/-- Inserting a fresh key appends it to the key list. -/
theorem dinsert_map_fst_not_mem {ν : Type} (k : String) (v : ν) :
    ∀ (d : List (String × ν)), k ∉ d.map Prod.fst →
      (dinsert k v d).map Prod.fst = d.map Prod.fst ++ [k] := by
  intro d
  induction d with
  | nil => intro h; rfl
  | cons p t ih =>
    intro h
    cases p with
    | mk k3 v3 =>
      simp only [List.map_cons, List.mem_cons] at h
      push_neg at h
      have h3 : k3 ≠ k := fun he => h.1 he.symm
      simp [dinsert, h3, ih h.2]

/-- Dict insertion preserves key-list distinctness. -/
theorem dinsert_nodup {ν : Type} (k : String) (v : ν) (d : List (String × ν))
    (h : (d.map Prod.fst).Nodup) : ((dinsert k v d).map Prod.fst).Nodup := by
  by_cases hm : k ∈ d.map Prod.fst
  · rw [dinsert_map_fst_mem k v d hm]
    exact h
  · rw [dinsert_map_fst_not_mem k v d hm]
    simp [List.nodup_append, h, hm]

/-- The create loop records a key exactly for the processed marketplaces
and whatever the accumulator already held. -/
theorem createLoop_lookup_isSome (env : Env) (listing_data : ListingData) :
    ∀ (l : List String) (res : List (String × PlatformResult)) (m : String),
      (dlookup (createLoop env listing_data l res) m).isSome
        ↔ m ∈ l ∨ (dlookup res m).isSome := by
  intro l
  induction l with
  | nil =>
    intro res m
    simp [createLoop]
  | cons x t ih =>
    intro res m
    simp only [createLoop, List.mem_cons]
    rw [ih]
    rw [dlookup_dinsert]
    by_cases hx : x = m
    · simp [hx]
    · have : ¬ m = x := fun h => hx h.symm
      simp [hx, this]

/-- The create loop preserves key-list distinctness. -/
theorem createLoop_nodup (env : Env) (listing_data : ListingData) :
    ∀ (l : List String) (res : List (String × PlatformResult)),
      ((res.map Prod.fst).Nodup) →
      (((createLoop env listing_data l res).map Prod.fst).Nodup) := by
  intro l
  induction l with
  | nil => intro res h; exact h
  | cons x t ih =>
    intro res h
    simp only [createLoop]
    exact ih _ (dinsert_nodup x _ res h)

/-- C6: create_or_update_listing always returns a completed aggregate
with exactly one platform_results entry per distinct target channel; per
channel the entry is a success record or a structured error entry (the
two constructors of PlatformResult), so no channel's failure blocks
another channel's entry, and the function is total (it never raises). -/
theorem create_or_update_listing_completed (env : Env) (listing_data : ListingData)
    (marketplaces : Option (List String)) :
    (create_or_update_listing env listing_data marketplaces).status = "completed" ∧
    (((create_or_update_listing env listing_data marketplaces).platform_results.map
        Prod.fst).Nodup) ∧
    ∀ m, (dlookup (create_or_update_listing env listing_data marketplaces).platform_results
        m).isSome ↔ m ∈ targetMarketplaces env marketplaces := by
  refine ⟨rfl, ?_, ?_⟩
  · exact createLoop_nodup env listing_data (targetMarketplaces env marketplaces) [] (by simp)
  · intro m
    rw [show (create_or_update_listing env listing_data marketplaces).platform_results
        = createLoop env listing_data (targetMarketplaces env marketplaces) [] from rfl]
    rw [createLoop_lookup_isSome]
    simp [dlookup]

/-- Completed order created 400 days before the reference time, in
January. -/
def orderOldCompleted : OrderRec :=
  { status := "completed", createdAt := ⟨⟨-(400 * 24), 1⟩, 1⟩,
    completedAt := some ⟨⟨-(399 * 24), 1⟩, 1⟩ }

/-- Completed order created 10 days before the reference time, in
June. -/
def orderRecentCompleted : OrderRec :=
  { status := "completed", createdAt := ⟨⟨-(10 * 24), 1⟩, 6⟩,
    completedAt := some ⟨⟨-(9 * 24), 1⟩, 6⟩ }

/-- Item of the toys category holding one listing with both orders. -/
def itemSeasonal : ItemRec :=
  { id := "IT1", detectedCategory := "toys",
    listings := [ { id := "L3", itemId := "IT1", marketplace := "ebay",
                    orders := [orderOldCompleted, orderRecentCompleted] } ] }

/-- Database for the seasonal-demand run. -/
def dbSeasonal : DB := { items := [itemSeasonal] }

/-- Reference time of the seasonal-demand run (absHours 0, June). -/
def nowSeasonal : PyDateTime := ⟨⟨0, 1⟩, 6⟩

/-- C4 divergence: predict_seasonal_demand date-filters only the item
selection, not the counted orders, so a completed order created 400 days
ago (strictly outside the trailing 365 days) still contributes 1 to the
January monthly count as soon as a sibling order keeps the item in the
query window.  The claim and the source comment say only trailing-365-day
orders are counted; the code counts the old order. -/
theorem seasonal_counts_order_outside_window :
    Frac.leB (nowSeasonal.absHours.fsub ⟨365 * 24, 1⟩) orderOldCompleted.createdAt.absHours
      = false ∧
    orderOldCompleted.status = "completed" ∧
    (predict_seasonal_demand dbSeasonal nowSeasonal "toys").toOption.map
        (fun r => dlookupN r.monthly_distribution 1) = some (some 1) := by
  exact ⟨by decide, rfl, by decide⟩

/-- Item with competitor-price samples on two marketplaces: channel A
averages 100 over 10 samples, channel B averages 102 over 10 samples. -/
def itemCompetitive : ItemRec :=
  { id := "I5",
    listings := [
      { id := "LA", itemId := "I5", marketplace := "A",
        marketResearch := [ { competitorPrices := some (List.replicate 10 ⟨100, 1⟩) } ] },
      { id := "LB", itemId := "I5", marketplace := "B",
        marketResearch := [ { competitorPrices := some (List.replicate 10 ⟨102, 1⟩) } ] } ] }

/-- Database for the competitive-pricing run. -/
def dbCompetitive : DB := { items := [itemCompetitive] }

/-- C5: with two or more marketplaces having samples, the recommendation
is match_market with the lowest average as target when the spread
highestAvg - lowestAvg is below 0.10 of the lowest average, and otherwise
competitive_advantage with target 0.95 of the highest average; in both
cases the confidence is min(sum of sample sizes / 20, 1.0). -/
theorem competitive_two_or_more (db : DB) (item_id : String) (item : ItemRec)
    (hconn : db.conn = none)
    (hfind : db.items.find? (fun it => it.id == item_id) = some item)
    (hlen : 2 ≤ (pricePointsOf (marketplacePricesOf item)).length) :
    analyze_competitive_pricing db item_id = .ok
      (if Frac.ltB ((highestAvgOf (pricePointsOf (marketplacePricesOf item))).fsub
            (lowestAvgOf (pricePointsOf (marketplacePricesOf item))))
          ((lowestAvgOf (pricePointsOf (marketplacePricesOf item))).fmul ⟨1, 10⟩)
       then { recommendation := "match_market",
              target_price := some (lowestAvgOf (pricePointsOf (marketplacePricesOf item))),
              price_points := pricePointsOf (marketplacePricesOf item),
              confidence := spreadConfidenceOf (pricePointsOf (marketplacePricesOf item)) }
       else { recommendation := "competitive_advantage",
              target_price := some ((highestAvgOf (pricePointsOf
                (marketplacePricesOf item))).fmul ⟨95, 100⟩),
              price_points := pricePointsOf (marketplacePricesOf item),
              confidence := spreadConfidenceOf (pricePointsOf (marketplacePricesOf item)) }) := by
  have hmpne : marketplacePricesOf item ≠ [] := by
    intro h
    rw [h] at hlen
    simp [pricePointsOf] at hlen
  have hie := isEmpty_false_of_ne_nil _ hmpne
  simp only [analyze_competitive_pricing, hconn, hfind, hie, Bool.false_eq_true, if_false,
    lowestAvgOf, highestAvgOf, spreadConfidenceOf]
  rw [if_pos hlen]
  by_cases hlt : Frac.ltB ((highestAvgOf (pricePointsOf (marketplacePricesOf item))).fsub
      (lowestAvgOf (pricePointsOf (marketplacePricesOf item))))
      ((lowestAvgOf (pricePointsOf (marketplacePricesOf item))).fmul ⟨1, 10⟩) = true
  · simp only [lowestAvgOf, highestAvgOf] at hlt
    rw [if_pos hlt, if_pos (by simpa [lowestAvgOf, highestAvgOf] using hlt)]
  · simp only [lowestAvgOf, highestAvgOf] at hlt
    rw [if_neg hlt, if_neg (by simpa [lowestAvgOf, highestAvgOf] using hlt)]

/-- C5 witness: the spec example with channel A averaging 100 over 10
samples and channel B averaging 102 over 10 samples recommends
match_market at the lowest average with full confidence. -/
theorem competitive_two_or_more_witness :
    dbCompetitive.conn = none ∧
    dbCompetitive.items.find? (fun it => it.id == "I5") = some itemCompetitive ∧
    2 ≤ (pricePointsOf (marketplacePricesOf itemCompetitive)).length ∧
    analyze_competitive_pricing dbCompetitive "I5" = .ok
      (if Frac.ltB ((highestAvgOf (pricePointsOf (marketplacePricesOf itemCompetitive))).fsub
            (lowestAvgOf (pricePointsOf (marketplacePricesOf itemCompetitive))))
          ((lowestAvgOf (pricePointsOf (marketplacePricesOf itemCompetitive))).fmul ⟨1, 10⟩)
       then { recommendation := "match_market",
              target_price := some (lowestAvgOf (pricePointsOf
                (marketplacePricesOf itemCompetitive))),
              price_points := pricePointsOf (marketplacePricesOf itemCompetitive),
              confidence := spreadConfidenceOf (pricePointsOf
                (marketplacePricesOf itemCompetitive)) }
       else { recommendation := "competitive_advantage",
              target_price := some ((highestAvgOf (pricePointsOf
                (marketplacePricesOf itemCompetitive))).fmul ⟨95, 100⟩),
              price_points := pricePointsOf (marketplacePricesOf itemCompetitive),
              confidence := spreadConfidenceOf (pricePointsOf
                (marketplacePricesOf itemCompetitive)) }) ∧
    (analyze_competitive_pricing dbCompetitive "I5").map (fun r => r.recommendation)
      = .ok "match_market" ∧
    (analyze_competitive_pricing dbCompetitive "I5").map (fun r => r.target_price)
      = .ok (some (lowestAvgOf (pricePointsOf (marketplacePricesOf itemCompetitive)))) := by
  refine ⟨rfl, by decide, by decide, ?_, by decide, by decide⟩
  exact competitive_two_or_more dbCompetitive "I5" itemCompetitive rfl (by decide) (by decide)

/-- Item whose only research row has a truthy competitorPrices JSON value
with an empty prices list. -/
def itemEmptySamples : ItemRec :=
  { id := "I7",
    listings := [ { id := "L7", itemId := "I7", marketplace := "A",
                    marketResearch := [ { competitorPrices := some [] } ] } ] }

/-- Database for the empty-samples competitive-pricing run. -/
def dbEmptySamples : DB := { items := [itemEmptySamples] }

/-- C7 divergence: when a research row carries a truthy competitorPrices
value whose prices list is empty, no channel has any sample, yet the
marketplace-prices dict is nonempty while price_points is empty, so the
single-marketplace branch evaluates next(iter(price_points.values())) and
the call raises StopIteration instead of returning insufficient_data with
confidence 0. -/
theorem competitive_no_samples_raises :
    (marketplacePricesOf itemEmptySamples).all (fun p => p.2.isEmpty) = true ∧
    analyze_competitive_pricing dbEmptySamples "I7" = .error (.unexpected "StopIteration") := by
  exact ⟨by decide, by decide⟩

/-- C9 witness: one unit of stock over three fresh channels gives every
channel one unit, and the sum 3 exceeds the total stock 1. -/
theorem weighted_base_exceeds_total_witness :
    ((1 : Nat) < (["a", "b", "c"] : List String).length) ∧
    weightedAllocation 1 ["a", "b", "c"] dbEmpty = .ok [("a", 1), ("b", 1), ("c", 1)] ∧
    ((∀ p ∈ [("a", (1 : Nat)), ("b", 1), ("c", 1)], 1 ≤ p.2) ∧
      1 < sumValues [("a", 1), ("b", 1), ("c", 1)]) := by
  refine ⟨by decide, by decide, ?_⟩
  exact weighted_base_exceeds_total 1 ["a", "b", "c"] dbEmpty [("a", 1), ("b", 1), ("c", 1)]
    (by decide) (by decide)
